import Mathlib

/-!
# Verification of the Lace split-deque owner operations (lace14.h)

This file gives a shallow embedding of the owner-side operations of the
Lace work-stealing scheduler, translated from the `TASK_0` family of
macros and the inline query functions in `src/lace14.h`, and proves the
specification claims about them.

Modelling conventions:
* Pointers into the deque (`w->head`, `w->split`, `w->end`) are modelled
  as integer offsets from `w->dq` (type `Int`, since C pointer
  arithmetic can in principle go below the base).
* The published `TailSplit` pair is one 64-bit word `pubV`
  (`union { struct { uint32_t tail; uint32_t split; }; uint64_t v; }`
  on a little-endian machine: `v = tail + 2^32 * split`).
* `uint32_t` arithmetic is modelled on `Nat` with explicit `% 2^32`.
* The `thief` field of a task is a pointer-sized value (`size_t`):
  `THIEF_EMPTY = 0`, `THIEF_TASK = 1`, `THIEF_COMPLETED = 2`, and any
  value `> 2` is a pointer to the stealing worker.
* The task body of an arity-0 task is treated as an opaque pure value
  `body : α` (the result that `NAME()` returns).
* `lace_sync` (the slow sync path) and `lace_run_task` live in the
  implementation file, which is not part of the verified sources; calls
  into them are modelled as distinguished outcomes (`SyncOut.slow`,
  `RunOutcome.handedToPool`) rather than given semantics.
-/

namespace Lace

/-- `2^32`, the modulus of `uint32_t` arithmetic. -/
def U32MOD : Nat := 4294967296

/-- A C cast of a (pointer-difference) integer to `uint32_t`. -/
def u32ofInt (i : Int) : Nat := (i % (4294967296 : Int)).toNat

/-- The 64-bit view of `TailSplitNA{{t, sp}}`: field `tail` is the low
word and `split` the high word (little endian). -/
def packTS (t sp : Nat) : Nat := (t % U32MOD) + U32MOD * (sp % U32MOD)

/-- Store `ns` into the `split` half of a packed `TailSplit` word
(`wt->ts.ts.split = ns`), leaving the `tail` half unchanged. -/
def setSplitHalf (v ns : Nat) : Nat := (v % U32MOD) + U32MOD * (ns % U32MOD)

/-- Owner-visible worker state: the private `WorkerP` fields used by the
deque operations together with the fields of its public `Worker` record
(`w->_public`).  `head`, `split`, `capacity` are offsets from `w->dq`
(for `w->head`, `w->split`, `w->end`); `thief i` is the `thief` field of
deque slot `i`. -/
structure WorkerState where
  head : Int
  split : Int
  capacity : Int
  allstolen : Bool
  movesplit : Bool
  pubAllstolen : Bool
  pubV : Nat
  thief : Int → Nat

/-- The `tail` half of the published pair (`wt->ts.ts.tail`). -/
def pubTail (s : WorkerState) : Nat := s.pubV % U32MOD

/-- The `split` half of the published pair (`wt->ts.ts.split`). -/
def pubSplit (s : WorkerState) : Nat := s.pubV / U32MOD

/-- The publication block of `NAME##_SPAWN` (the two conditional
branches between the acquire fence and the increment of `w->head`):
republish on `allstolen`, grow the shared region on `movesplit`, else
nothing. -/
def spawnPublish (s1 : WorkerState) : WorkerState :=
  if s1.allstolen then
    -- if (wt->movesplit) wt->movesplit = 0;
    -- ts = {head, head+1}; wt->ts.v = ts.v; wt->allstolen = 0;
    -- w->split = lace_head+1; w->allstolen = 0;
    let h32 := u32ofInt s1.head
    { s1 with movesplit := false
            , pubV := packTS h32 (h32 + 1)
            , pubAllstolen := false
            , split := s1.head + 1
            , allstolen := false }
  else if s1.movesplit then
    -- newsplit = (split + head + 2)/2; wt->ts.ts.split = newsplit;
    -- w->split = w->dq + newsplit; wt->movesplit = 0;
    let h32 := u32ofInt s1.head
    let sp32 := u32ofInt s1.split
    let newsplit := ((sp32 + h32 + 2) % U32MOD) / 2
    { s1 with pubV := setSplitHalf s1.pubV newsplit
            , split := (newsplit : Int)
            , movesplit := false }
  else s1

/-- `NAME##_SPAWN` from the `TASK_0` macro.  Returns `none` when the
overflow check `lace_head == w->end` fires (`lace_abort_stack_overflow`
does not return), else the updated worker state.  The abort check
precedes every write, as in the source. -/
def spawn (s : WorkerState) : Option WorkerState :=
  if s.head = s.capacity then none
  else
    -- t->f = &NAME##_WRAP; atomic_store(&t->thief, THIEF_TASK)
    let s1 : WorkerState :=
      { s with thief := fun i => if i = s.head then 1 else s.thief i }
    let s2 : WorkerState := spawnPublish s1
    -- w->head = lace_head + 1;
    some { s2 with head := s2.head + 1 }

/-- Outcome of `NAME##_SYNC`: the fast path executes the body inline and
returns its result directly; otherwise control reaches the call to
`lace_sync` (the slow path, implemented outside the verified sources).
`abort` is included to express that no branch of `SYNC` aborts. -/
inductive SyncOut (α : Type) where
  | fastInline (r : α)
  | slow
  | abort
deriving DecidableEq

/-- `NAME##_SYNC` from the `TASK_0` macro, up to the call of
`lace_sync`.  The head is decremented unconditionally (the assert
`__dq_head > 0` is commented out in the source); if `movesplit` is
clear and `w->split <= head`, the owner stores `THIEF_EMPTY` into the
slot and runs the body inline. -/
def syncStep {α : Type} (s : WorkerState) (body : α) :
    WorkerState × SyncOut α :=
  let h := s.head - 1
  let s1 : WorkerState := { s with head := h }
  if s1.movesplit = false then
    if s1.split ≤ h then
      ({ s1 with thief := fun i => if i = h then 0 else s1.thief i },
       SyncOut.fastInline body)
    else (s1, SyncOut.slow)
  else (s1, SyncOut.slow)

/-- Iterated spawn: a linear chain of `n` un-synced `SPAWN`s; `none` as
soon as one of them hits the overflow abort. -/
def spawnN : Nat → WorkerState → Option WorkerState
  | 0, s => some s
  | n + 1, s =>
    match spawn s with
    | none => none
    | some s' => spawnN n s'

/-- A freshly initialized worker with deque capacity `k`: empty deque,
all indices at the base, no flags set. -/
def initState (k : Nat) : WorkerState :=
  { head := 0
  , split := 0
  , capacity := (k : Int)
  , allstolen := false
  , movesplit := false
  , pubAllstolen := false
  , pubV := 0
  , thief := fun _ => 0 }

/-- The fields of the thread-local `WorkerP` record consulted by the
query functions: `uint16_t worker` (the worker id) and `int16_t pu`
(the pinned processing unit). -/
structure WorkerInfo where
  worker : Nat
  pu : Int

/-- `lace_get_worker()`: the thread-local worker pointer, `none` when
the current thread is not a Lace worker (NULL). -/
def lace_get_worker (ctx : Option WorkerInfo) : Option WorkerInfo := ctx

/-- `lace_is_worker()`: `lace_get_worker() != NULL ? 1 : 0`. -/
def lace_is_worker (ctx : Option WorkerInfo) : Int :=
  match lace_get_worker ctx with
  | some _ => 1
  | none => 0

/-- `lace_worker_id()`:
`lace_get_worker() == NULL ? -1 : lace_get_worker()->worker`. -/
def lace_worker_id (ctx : Option WorkerInfo) : Int :=
  match lace_get_worker ctx with
  | none => -1
  | some w => (w.worker : Int)

/-- `lace_worker_pu()`:
`lace_get_worker() == NULL ? -1 : lace_get_worker()->pu`. -/
def lace_worker_pu (ctx : Option WorkerInfo) : Int :=
  match lace_get_worker ctx with
  | none => -1
  | some w => w.pu

/-- A task record as seen by the status queries: only its `thief`
field, a pointer-sized value read through `(size_t)(Worker*)t->thief`.
`THIEF_EMPTY = 0`, `THIEF_TASK = 1`, `THIEF_COMPLETED = 2`. -/
structure TaskRec where
  thief : Nat

/-- `lace_is_stolen_task(t)`: `((size_t)t->thief > 1) ? 1 : 0`. -/
def lace_is_stolen_task (t : TaskRec) : Int :=
  if 1 < t.thief then 1 else 0

/-- `lace_is_completed_task(t)`: `((size_t)t->thief == 2) ? 1 : 0`. -/
def lace_is_completed_task (t : TaskRec) : Int :=
  if t.thief = 2 then 1 else 0

/-- Outcome of `NAME##_RUN`: either a direct call of the body (no task
descriptor is built) or a descriptor built on the caller's stack with
`thief` initialized to `THIEF_TASK` and handed to `lace_run_task`
(which lives outside the verified sources). -/
inductive RunOutcome (α : Type) where
  | direct (r : α)
  | handedToPool (thiefInit : Nat)
deriving DecidableEq

/-- `NAME##_RUN` from the `TASK_0` macro: if `lace_is_worker()` the
body is called directly; otherwise a descriptor `_t` is built with
`t->f = &NAME##_WRAP` and `t->thief = THIEF_TASK`, and passed to
`lace_run_task(&_t)`. -/
def runDispatch {α : Type} (ctx : Option WorkerInfo) (body : α) :
    RunOutcome α :=
  if lace_is_worker ctx = 1 then RunOutcome.direct body
  else RunOutcome.handedToPool 1

/-- The concrete state refuting claim C4 as stated: `allstolen` clear,
`movesplit` set, and `split = head = 0`, so the owner has no private
task before the push and exactly one (immediately shared) after it —
never more than one. -/
def growCounterexState : WorkerState :=
  { head := 0
  , split := 0
  , capacity := 4
  , allstolen := false
  , movesplit := true
  , pubAllstolen := false
  , pubV := 0
  , thief := fun _ => 0 }

/-- The deque-index invariant of the claim: `0 ≤ tail ≤ split ≤ head ≤
capacity` on the owner's indices, and on the published pair
(`tail ≤ split`, both within the deque; the published indices are
`uint32_t`, hence nonnegative by construction). -/
def DequeInv (s : WorkerState) : Prop :=
  0 ≤ s.split ∧ s.split ≤ s.head ∧ s.head ≤ s.capacity ∧
  pubTail s ≤ pubSplit s ∧ (pubSplit s : Int) ≤ s.capacity

/-- Representation well-formedness tying the published pair to the
owner's view: the capacity fits the packed `uint32_t` indices, and
while `allstolen` is clear the published split mirrors `w->split` (the
source documents `Task *split` as `same as dq+ts.ts.split`). -/
def PubCoherent (s : WorkerState) : Prop :=
  s.capacity ≤ 2147483646 ∧
  (s.allstolen = false → (pubSplit s : Int) = s.split)

/-- A concrete quiescent worker state used by several witnesses. -/
def wQuiet : WorkerState :=
  { head := 2
  , split := 1
  , capacity := 5
  , allstolen := false
  , movesplit := false
  , pubAllstolen := false
  , pubV := packTS 1 1
  , thief := fun _ => 0 }

/-- The concrete state for the C2 witness: the slot below the head
holds a spawned, un-stolen task. -/
def wFast : WorkerState :=
  { head := 2
  , split := 0
  , capacity := 5
  , allstolen := false
  , movesplit := false
  , pubAllstolen := false
  , pubV := packTS 0 0
  , thief := fun i => if i = 1 then 1 else 0 }

/-- The concrete all-stolen state for the C3 witness. -/
def wStolen : WorkerState :=
  { head := 2
  , split := 1
  , capacity := 5
  , allstolen := true
  , movesplit := true
  , pubAllstolen := true
  , pubV := packTS 1 1
  , thief := fun _ => 0 }

/-- The concrete state for the C4 (amended) witness. -/
def wGrow : WorkerState :=
  { head := 3
  , split := 1
  , capacity := 5
  , allstolen := false
  , movesplit := true
  , pubAllstolen := false
  , pubV := packTS 0 1
  , thief := fun _ => 0 }

/-! ## Helper lemmas on the packed published pair -/

theorem packTS_mod (t sp : Nat) : packTS t sp % U32MOD = t % U32MOD := by
  unfold packTS U32MOD
  omega

theorem packTS_div (t sp : Nat) : packTS t sp / U32MOD = sp % U32MOD := by
  unfold packTS U32MOD
  omega

theorem setSplitHalf_mod (v ns : Nat) :
    setSplitHalf v ns % U32MOD = v % U32MOD := by
  unfold setSplitHalf U32MOD
  omega

theorem setSplitHalf_div (v ns : Nat) :
    setSplitHalf v ns / U32MOD = ns % U32MOD := by
  unfold setSplitHalf U32MOD
  omega

theorem u32ofInt_eq (i : Int) (h0 : 0 ≤ i) (h1 : i < 4294967296) :
    u32ofInt i = i.toNat := by
  unfold u32ofInt
  rw [Int.emod_eq_of_lt h0 h1]

theorem spawnPublish_head (s : WorkerState) :
    (spawnPublish s).head = s.head := by
  unfold spawnPublish
  split
  · rfl
  · split <;> rfl

theorem spawnPublish_capacity (s : WorkerState) :
    (spawnPublish s).capacity = s.capacity := by
  unfold spawnPublish
  split
  · rfl
  · split <;> rfl

theorem spawnPublish_thief (s : WorkerState) :
    (spawnPublish s).thief = s.thief := by
  unfold spawnPublish
  split
  · rfl
  · split <;> rfl

theorem spawnPublish_of_clear (s : WorkerState)
    (hall : s.allstolen = false) (hms : s.movesplit = false) :
    spawnPublish s = s := by
  unfold spawnPublish
  rw [if_neg (by simp [hall]), if_neg (by simp [hms])]

theorem spawn_eq_none_iff (s : WorkerState) :
    spawn s = none ↔ s.head = s.capacity := by
  unfold spawn
  split
  · simp [*]
  · simp [*]

theorem spawn_isSome (s : WorkerState) (hne : s.head ≠ s.capacity) :
    ∃ s', spawn s = some s' ∧ s'.head = s.head + 1 ∧
      s'.capacity = s.capacity := by
  unfold spawn
  rw [if_neg hne]
  refine ⟨_, rfl, ?_, ?_⟩
  · show (spawnPublish _).head + 1 = s.head + 1
    rw [spawnPublish_head]
  · show (spawnPublish _).capacity = s.capacity
    rw [spawnPublish_capacity]

theorem spawn_allstolen_eq (s : WorkerState)
    (hall : s.allstolen = true) (hne : s.head ≠ s.capacity) :
    spawn s = some
      { head := s.head + 1
      , split := s.head + 1
      , capacity := s.capacity
      , allstolen := false
      , movesplit := false
      , pubAllstolen := false
      , pubV := packTS (u32ofInt s.head) (u32ofInt s.head + 1)
      , thief := fun i => if i = s.head then 1 else s.thief i } := by
  simp only [spawn, spawnPublish, if_neg hne]
  simp [hall]

theorem spawn_clear_eq (s : WorkerState)
    (hall : s.allstolen = false) (hms : s.movesplit = false)
    (hne : s.head ≠ s.capacity) :
    spawn s = some
      { s with head := s.head + 1
             , thief := fun i => if i = s.head then 1 else s.thief i } := by
  simp only [spawn, spawnPublish, if_neg hne]
  simp [hall, hms]

theorem spawn_movesplit_eq (s : WorkerState)
    (hall : s.allstolen = false) (hms : s.movesplit = true)
    (hne : s.head ≠ s.capacity) :
    spawn s = some
      { s with head := s.head + 1
             , split :=
                 ((((u32ofInt s.split + u32ofInt s.head + 2) % U32MOD) / 2
                   : Nat) : Int)
             , pubV := setSplitHalf s.pubV
                 (((u32ofInt s.split + u32ofInt s.head + 2) % U32MOD) / 2)
             , movesplit := false
             , thief := fun i => if i = s.head then 1 else s.thief i } := by
  simp only [spawn, spawnPublish, if_neg hne]
  simp [hall, hms]

theorem syncStep_fast {α : Type} (s : WorkerState) (body : α)
    (hms : s.movesplit = false) (hpriv : s.split ≤ s.head - 1) :
    syncStep s body =
      ({ s with head := s.head - 1
              , thief := fun i => if i = s.head - 1 then 0 else s.thief i },
       SyncOut.fastInline body) := by
  simp only [syncStep, hms, hpriv]
  simp

theorem syncStep_not_fast {α : Type} (s : WorkerState) (body : α)
    (h : ¬(s.movesplit = false ∧ s.split ≤ s.head - 1)) :
    syncStep s body = ({ s with head := s.head - 1 }, SyncOut.slow) := by
  by_cases h1 : s.movesplit = false
  · have h2 : ¬s.split ≤ s.head - 1 := fun h2 => h ⟨h1, h2⟩
    simp only [syncStep, h1, h2]
    simp
  · simp only [syncStep]
    rw [if_neg h1]

/-! ## Claim theorems -/

/-- C9: `lace_is_stolen_task(t)` returns 1 exactly when the `thief`
field is neither `THIEF_EMPTY` (0) nor `THIEF_TASK` (1); in particular
it returns 1 on `THIEF_COMPLETED` (2), so every task reported completed
by `lace_is_completed_task` is also reported stolen. -/
theorem stolen_completed_task_queries (t : TaskRec) :
    (lace_is_stolen_task t = 1 ↔ (t.thief ≠ 0 ∧ t.thief ≠ 1)) ∧
    lace_is_stolen_task ⟨2⟩ = 1 ∧
    (lace_is_completed_task t = 1 → lace_is_stolen_task t = 1) := by
  unfold lace_is_stolen_task lace_is_completed_task
  refine ⟨?_, by norm_num, ?_⟩
  · constructor
    · intro h
      by_cases h1 : 1 < t.thief
      · omega
      · simp [h1] at h
    · intro ⟨h0, h1⟩
      have : 1 < t.thief := by omega
      simp [this]
  · intro h
    by_cases h2 : t.thief = 2
    · simp [h2]
    · simp [h2] at h

/-- C10: `lace_worker_id` and `lace_worker_pu` return -1 on a
non-worker thread (NULL worker pointer), the stored worker id and
pinned PU inside a worker, and `lace_is_worker` returns 1 exactly when
the thread-local worker pointer is non-null. -/
theorem worker_query_spec (ctx : Option WorkerInfo) :
    (ctx = none → lace_worker_id ctx = -1 ∧ lace_worker_pu ctx = -1) ∧
    (∀ w, ctx = some w →
      lace_worker_id ctx = (w.worker : Int) ∧ lace_worker_pu ctx = w.pu) ∧
    (lace_is_worker ctx = 1 ↔ ctx ≠ none) := by
  unfold lace_worker_id lace_worker_pu lace_is_worker lace_get_worker
  rcases ctx with _ | w
  · refine ⟨fun _ => ⟨rfl, rfl⟩, ?_, ?_⟩
    · intro w h
      exact absurd h (by simp)
    · simp
  · refine ⟨?_, ?_, ?_⟩
    · intro h
      exact absurd h (by simp)
    · intro w' h
      rw [Option.some_inj] at h
      subst h
      exact ⟨rfl, rfl⟩
    · simp

/-- C8: `RUN` called from inside a Lace worker degrades to a direct
call of the task body (no descriptor is built, nothing is handed to the
pool); only on a non-worker thread does it build a descriptor with
`thief = THIEF_TASK` and pass it to `lace_run_task`. -/
theorem run_dispatch_spec {α : Type} (ctx : Option WorkerInfo) (body : α) :
    (ctx ≠ none → runDispatch ctx body = RunOutcome.direct body) ∧
    (ctx = none → runDispatch ctx body = RunOutcome.handedToPool 1) ∧
    (∀ k, RunOutcome.direct body ≠ (RunOutcome.handedToPool k : RunOutcome α)) := by
  unfold runDispatch lace_is_worker lace_get_worker
  rcases ctx with _ | w
  · refine ⟨fun h => absurd rfl h, fun _ => by norm_num, ?_⟩
    intro k h
    cases h
  · refine ⟨fun _ => by norm_num, ?_, ?_⟩
    · intro h
      exact absurd h (by simp)
    · intro k h
      cases h

/-- C7 counterexample: `SYNC` on a worker whose head is at the deque
base does NOT abort (the assert is commented out in the source); it
proceeds, decrementing head below the base. -/
theorem sync_at_base_does_not_abort :
    (syncStep (initState 3) (0 : Nat)).2 ≠ SyncOut.abort ∧
    (syncStep (initState 3) (0 : Nat)).1.head = -1 ∧
    (initState 3).head = 0 := by
  refine ⟨by decide, by decide, rfl⟩

/-- C7 amended: `SYNC` never aborts, whether or not a matching spawn
exists: it unconditionally decrements the head (below the deque base
when there is no un-joined spawn) and proceeds to the fast or slow
path, relying on the caller contract. -/
theorem sync_never_aborts {α : Type} (s : WorkerState) (body : α) :
    (syncStep s body).2 ≠ SyncOut.abort ∧
    (syncStep s body).1.head = s.head - 1 := by
  by_cases h1 : s.movesplit = false
  · by_cases h2 : s.split ≤ s.head - 1
    · simp [syncStep, h1, h2]
    · simp [syncStep, h1, h2]
  · simp [syncStep, h1]

/-- C2: when `movesplit` is clear, the joined slot is still private
(`split ≤ head - 1`), and the slot's `thief` field is still
`THIEF_TASK`, `SYNC` stores `THIEF_EMPTY` into the slot, runs the body
inline and returns its result directly, never reaching the slow path
(`lace_sync`). -/
theorem sync_fast_path_spec {α : Type} (s : WorkerState) (body : α)
    (hms : s.movesplit = false) (hpriv : s.split ≤ s.head - 1)
    (_htask : s.thief (s.head - 1) = 1) :
    (syncStep s body).2 = SyncOut.fastInline body ∧
    (syncStep s body).1.head = s.head - 1 ∧
    (syncStep s body).1.thief (s.head - 1) = 0 ∧
    (∀ i, i ≠ s.head - 1 → (syncStep s body).1.thief i = s.thief i) ∧
    (syncStep s body).1.split = s.split ∧
    (syncStep s body).1.pubV = s.pubV ∧
    (syncStep s body).2 ≠ SyncOut.slow := by
  simp only [syncStep, hms, hpriv]
  simp only [if_true, eq_self_iff_true, if_pos]
  refine ⟨trivial, trivial, by simp, ?_, trivial, trivial, by simp⟩
  intro i hi
  simp [hi]

theorem spawnN_chain (n : Nat) :
    ∀ s : WorkerState, s.capacity = s.head + n →
      (∃ s', spawnN n s = some s' ∧ s'.head = s.capacity) ∧
      spawnN (n + 1) s = none := by
  induction n with
  | zero =>
    intro s h
    refine ⟨⟨s, rfl, by omega⟩, ?_⟩
    show (match spawn s with
          | none => none
          | some s' => spawnN 0 s') = none
    rw [(spawn_eq_none_iff s).mpr (by omega)]
  | succ n ih =>
    intro s h
    have hne : s.head ≠ s.capacity := by
      intro he
      rw [he] at h
      omega
    obtain ⟨s', hs', hh, hc⟩ := spawn_isSome s hne
    have hcap' : s'.capacity = s'.head + n := by
      rw [hc, hh, h]
      push_cast
      ring
    obtain ⟨hsome, hnone⟩ := ih s' hcap'
    constructor
    · obtain ⟨s'', h1, h2⟩ := hsome
      refine ⟨s'', ?_, by rw [h2, hc]⟩
      show (match spawn s with
            | none => none
            | some t => spawnN n t) = some s''
      rw [hs']
      exact h1
    · show (match spawn s with
            | none => none
            | some t => spawnN (n + 1) t) = none
      rw [hs']
      exact hnone

/-- C5: with deque capacity `k`, a linear chain of `k` un-synced
`SPAWN`s succeeds and the `(k+1)`-th aborts with task-stack overflow;
the abort fires exactly when `head == capacity` (and, per the
definition of `spawn`, the check precedes every write of descriptor
bytes). -/
theorem spawn_chain_overflow (k : Nat) :
    (∃ s', spawnN k (initState k) = some s' ∧ s'.head = (k : Int)) ∧
    spawnN (k + 1) (initState k) = none ∧
    ∀ s : WorkerState, spawn s = none ↔ s.head = s.capacity := by
  have h := spawnN_chain k (initState k) (by simp [initState])
  refine ⟨?_, h.2, spawn_eq_none_iff⟩
  obtain ⟨s', h1, h2⟩ := h.1
  exact ⟨s', h1, by simpa [initState] using h2⟩

/-- C3: a push executed while the owner's private `allstolen` flag is
set stores the published pair as a single 64-bit word whose `tail` half
is the index of the pushed slot and whose `split` half is that index
plus one, clears the public and private `allstolen` flags, clears
`movesplit`, and sets the private split to one past the pushed slot. -/
theorem spawn_allstolen_republish (s : WorkerState)
    (hall : s.allstolen = true) (hne : s.head ≠ s.capacity)
    (h0 : 0 ≤ s.head) (h1 : s.head + 1 < 4294967296) :
    ∃ s', spawn s = some s' ∧
      s'.pubV = packTS s.head.toNat (s.head.toNat + 1) ∧
      (pubTail s' : Int) = s.head ∧
      (pubSplit s' : Int) = s.head + 1 ∧
      s'.allstolen = false ∧ s'.pubAllstolen = false ∧
      s'.movesplit = false ∧ s'.split = s.head + 1 ∧
      s'.head = s.head + 1 := by
  have hu : u32ofInt s.head = s.head.toNat := u32ofInt_eq s.head h0 (by omega)
  rw [spawn_allstolen_eq s hall hne]
  refine ⟨_, rfl, ?_, ?_, ?_, rfl, rfl, rfl, rfl, rfl⟩
  · show packTS (u32ofInt s.head) (u32ofInt s.head + 1) =
      packTS s.head.toNat (s.head.toNat + 1)
    rw [hu]
  · show ((packTS (u32ofInt s.head) (u32ofInt s.head + 1) % U32MOD : Nat) : Int)
      = s.head
    rw [hu, packTS_mod]
    have h2 : s.head.toNat % U32MOD = s.head.toNat := by
      unfold U32MOD
      omega
    rw [h2]
    omega
  · show ((packTS (u32ofInt s.head) (u32ofInt s.head + 1) / U32MOD : Nat) : Int)
      = s.head + 1
    rw [hu, packTS_div]
    have h2 : (s.head.toNat + 1) % U32MOD = s.head.toNat + 1 := by
      unfold U32MOD
      omega
    rw [h2]
    omega



/-- C4 counterexample: a push with `movesplit` set moves the split even
though the owner does not have more than one private task
(`head - split = 0` before the push); the code checks only `movesplit`,
with no private-task-count precondition. -/
theorem split_grow_without_two_private_tasks :
    (spawn growCounterexState).map (fun w => (w.split, w.head, w.movesplit))
      = some (1, 1, false) ∧
    growCounterexState.movesplit = true ∧
    growCounterexState.allstolen = false ∧
    growCounterexState.head - growCounterexState.split ≤ 1 := by
  refine ⟨by decide, rfl, rfl, by decide⟩

/-- C4 amended: a push executed while `allstolen` is clear and
`movesplit` is set always moves the split rightward to the (round-up)
midpoint of the region between the old split and the new head,
publishes the new split index, and clears `movesplit` — regardless of
how many private tasks the owner holds. -/
theorem spawn_movesplit_grows_split (s : WorkerState)
    (hall : s.allstolen = false) (hms : s.movesplit = true)
    (hne : s.head ≠ s.capacity) (h0 : 0 ≤ s.split) (hsh : s.split ≤ s.head)
    (hbound : s.split + s.head + 2 < 4294967296) :
    ∃ s', spawn s = some s' ∧
      s'.split = (s.split + s.head + 2) / 2 ∧
      (pubSplit s' : Int) = s'.split ∧
      pubTail s' = pubTail s ∧
      s'.movesplit = false ∧
      s.split < s'.split ∧ s'.split ≤ s.head + 1 ∧
      s'.head = s.head + 1 := by
  have hh0 : 0 ≤ s.head := le_trans h0 hsh
  have husp : u32ofInt s.split = s.split.toNat :=
    u32ofInt_eq s.split h0 (by omega)
  have huh : u32ofInt s.head = s.head.toNat :=
    u32ofInt_eq s.head hh0 (by omega)
  have hmod : (u32ofInt s.split + u32ofInt s.head + 2) % U32MOD
      = s.split.toNat + s.head.toNat + 2 := by
    rw [husp, huh]
    unfold U32MOD
    omega
  rw [spawn_movesplit_eq s hall hms hne]
  refine ⟨_, rfl, ?_, ?_, ?_, rfl, ?_, ?_, rfl⟩
  · show ((((u32ofInt s.split + u32ofInt s.head + 2) % U32MOD) / 2
      : Nat) : Int) = (s.split + s.head + 2) / 2
    rw [hmod]
    omega
  · show ((setSplitHalf s.pubV
        (((u32ofInt s.split + u32ofInt s.head + 2) % U32MOD) / 2)
        / U32MOD : Nat) : Int)
      = ((((u32ofInt s.split + u32ofInt s.head + 2) % U32MOD) / 2
        : Nat) : Int)
    rw [setSplitHalf_div, hmod]
    have hlt : (s.split.toNat + s.head.toNat + 2) / 2 % U32MOD
        = (s.split.toNat + s.head.toNat + 2) / 2 := by
      unfold U32MOD
      omega
    rw [hlt]
  · show setSplitHalf s.pubV
        (((u32ofInt s.split + u32ofInt s.head + 2) % U32MOD) / 2)
        % U32MOD = s.pubV % U32MOD
    exact setSplitHalf_mod _ _
  · show s.split < ((((u32ofInt s.split + u32ofInt s.head + 2) % U32MOD) / 2
      : Nat) : Int)
    rw [hmod]
    omega
  · show ((((u32ofInt s.split + u32ofInt s.head + 2) % U32MOD) / 2
      : Nat) : Int) ≤ s.head + 1
    rw [hmod]
    omega

/-- C1: for a spawned task whose deque slot is never touched by a thief
(`allstolen` clear, `movesplit` clear, slot still private at the join),
`SPAWN` followed by the matching `SYNC` returns the same result as
calling the task body inline and leaves every observable component of
the worker state (indices, flags, published pair) unchanged; only the
dead slot's `thief` field is reset to `THIEF_EMPTY`. -/
theorem spawn_then_sync_runs_inline {α : Type} (s : WorkerState) (body : α)
    (hne : s.head ≠ s.capacity) (hall : s.allstolen = false)
    (hms : s.movesplit = false) (hpriv : s.split ≤ s.head) :
    ∃ s1 s2, spawn s = some s1 ∧
      syncStep s1 body = (s2, SyncOut.fastInline body) ∧
      s2.head = s.head ∧ s2.split = s.split ∧ s2.capacity = s.capacity ∧
      s2.allstolen = s.allstolen ∧ s2.movesplit = s.movesplit ∧
      s2.pubAllstolen = s.pubAllstolen ∧ s2.pubV = s.pubV ∧
      s2.thief s.head = 0 ∧ ∀ i, i ≠ s.head → s2.thief i = s.thief i := by
  refine ⟨_, _, spawn_clear_eq s hall hms hne,
    syncStep_fast _ body hms (by
      show s.split ≤ s.head + 1 - 1
      omega), ?_, rfl, rfl, rfl, rfl, rfl, rfl, ?_, ?_⟩
  · show s.head + 1 - 1 = s.head
    omega
  · show (if s.head = s.head + 1 - 1 then 0
      else if s.head = s.head then 1 else s.thief s.head) = 0
    simp
  · intro i hi
    show (if i = s.head + 1 - 1 then 0
      else if i = s.head then 1 else s.thief i) = s.thief i
    simp [hi]




/-- C6: every owner-side deque operation — the plain `SPAWN` push, the
republish-on-allstolen push, the split-growing push, and the `SYNC`
fast-path pop — preserves the invariant `0 ≤ tail ≤ split ≤ head ≤
capacity` on the owner's indices and on the published pair, assuming it
(with publication coherence) holds before the operation. -/
theorem owner_ops_preserve_deque_invariant (s : WorkerState)
    (hinv : DequeInv s) (hco : PubCoherent s) :
    (∀ s', spawn s = some s' → DequeInv s' ∧ PubCoherent s') ∧
    (∀ s', syncStep s () = (s', SyncOut.fastInline ()) →
      DequeInv s' ∧ PubCoherent s') := by
  obtain ⟨h0, hsh, hhc, htp, hpc⟩ := hinv
  obtain ⟨hcap, hcoh⟩ := hco
  have hh0 : 0 ≤ s.head := le_trans h0 hsh
  constructor
  · intro s' hsp
    have hne : s.head ≠ s.capacity := by
      intro he
      rw [(spawn_eq_none_iff s).mpr he] at hsp
      cases hsp
    have huh : u32ofInt s.head = s.head.toNat :=
      u32ofInt_eq s.head hh0 (by omega)
    by_cases hall : s.allstolen = true
    · rw [spawn_allstolen_eq s hall hne, Option.some_inj] at hsp
      subst hsp
      refine ⟨⟨?_, ?_, ?_, ?_, ?_⟩, hcap, ?_⟩
      · show (0 : Int) ≤ s.head + 1
        omega
      · show s.head + 1 ≤ s.head + 1
        omega
      · show s.head + 1 ≤ s.capacity
        omega
      · show packTS (u32ofInt s.head) (u32ofInt s.head + 1) % U32MOD ≤
          packTS (u32ofInt s.head) (u32ofInt s.head + 1) / U32MOD
        rw [packTS_mod, packTS_div, huh]
        unfold U32MOD
        omega
      · show ((packTS (u32ofInt s.head) (u32ofInt s.head + 1) / U32MOD
          : Nat) : Int) ≤ s.capacity
        rw [packTS_div, huh]
        unfold U32MOD
        omega
      · intro _
        show ((packTS (u32ofInt s.head) (u32ofInt s.head + 1) / U32MOD
          : Nat) : Int) = s.head + 1
        rw [packTS_div, huh]
        unfold U32MOD
        omega
    · have hallf : s.allstolen = false := by
        revert hall
        cases s.allstolen <;> simp
      have husp : u32ofInt s.split = s.split.toNat :=
        u32ofInt_eq s.split h0 (by omega)
      have htp' : s.pubV % U32MOD ≤ s.pubV / U32MOD := htp
      have hx : ((s.pubV / U32MOD : Nat) : Int) = s.split := hcoh hallf
      by_cases hms : s.movesplit = true
      · have hmod : (u32ofInt s.split + u32ofInt s.head + 2) % U32MOD
            = s.split.toNat + s.head.toNat + 2 := by
          rw [husp, huh]
          unfold U32MOD
          omega
        rw [spawn_movesplit_eq s hallf hms hne, Option.some_inj] at hsp
        subst hsp
        refine ⟨⟨?_, ?_, ?_, ?_, ?_⟩, hcap, ?_⟩
        · show (0 : Int) ≤
            ((((u32ofInt s.split + u32ofInt s.head + 2) % U32MOD) / 2
              : Nat) : Int)
          omega
        · show ((((u32ofInt s.split + u32ofInt s.head + 2) % U32MOD) / 2
            : Nat) : Int) ≤ s.head + 1
          rw [hmod]
          omega
        · show s.head + 1 ≤ s.capacity
          omega
        · show setSplitHalf s.pubV
              (((u32ofInt s.split + u32ofInt s.head + 2) % U32MOD) / 2)
              % U32MOD ≤
            setSplitHalf s.pubV
              (((u32ofInt s.split + u32ofInt s.head + 2) % U32MOD) / 2)
              / U32MOD
          rw [setSplitHalf_mod, setSplitHalf_div, hmod]
          unfold U32MOD at htp' hx ⊢
          omega
        · show ((setSplitHalf s.pubV
              (((u32ofInt s.split + u32ofInt s.head + 2) % U32MOD) / 2)
              / U32MOD : Nat) : Int) ≤ s.capacity
          rw [setSplitHalf_div, hmod]
          unfold U32MOD
          omega
        · intro _
          show ((setSplitHalf s.pubV
              (((u32ofInt s.split + u32ofInt s.head + 2) % U32MOD) / 2)
              / U32MOD : Nat) : Int) =
            ((((u32ofInt s.split + u32ofInt s.head + 2) % U32MOD) / 2
              : Nat) : Int)
          rw [setSplitHalf_div, hmod]
          unfold U32MOD
          omega
      · have hmsf : s.movesplit = false := by
          revert hms
          cases s.movesplit <;> simp
        rw [spawn_clear_eq s hallf hmsf hne, Option.some_inj] at hsp
        subst hsp
        refine ⟨⟨h0, ?_, ?_, htp, hpc⟩, hcap, ?_⟩
        · show s.split ≤ s.head + 1
          omega
        · show s.head + 1 ≤ s.capacity
          omega
        · intro _
          exact hcoh hallf
  · intro s' hstep
    by_cases h1 : s.movesplit = false
    · by_cases h2 : s.split ≤ s.head - 1
      · rw [syncStep_fast s () h1 h2, Prod.mk.injEq] at hstep
        obtain ⟨h3, _⟩ := hstep
        subst h3
        refine ⟨⟨h0, h2, ?_, htp, hpc⟩, hcap, ?_⟩
        · show s.head - 1 ≤ s.capacity
          omega
        · intro hf
          exact hcoh hf
      · rw [syncStep_not_fast s () (fun hc => h2 hc.2),
            Prod.mk.injEq] at hstep
        exact absurd hstep.2 (by decide)
    · rw [syncStep_not_fast s () (fun hc => h1 hc.1),
          Prod.mk.injEq] at hstep
      exact absurd hstep.2 (by decide)


/-! ## Witnesses: concrete instantiations of the conditional theorems -/


/-- Witness for C1 at a concrete state and body. -/
theorem spawn_then_sync_runs_inline_witness :
    wQuiet.head ≠ wQuiet.capacity ∧ wQuiet.allstolen = false ∧
    wQuiet.movesplit = false ∧ wQuiet.split ≤ wQuiet.head ∧
    (∃ s1 s2, spawn wQuiet = some s1 ∧
      syncStep s1 (7 : Nat) = (s2, SyncOut.fastInline 7) ∧
      s2.head = wQuiet.head ∧ s2.split = wQuiet.split ∧
      s2.capacity = wQuiet.capacity ∧ s2.allstolen = wQuiet.allstolen ∧
      s2.movesplit = wQuiet.movesplit ∧
      s2.pubAllstolen = wQuiet.pubAllstolen ∧ s2.pubV = wQuiet.pubV ∧
      s2.thief wQuiet.head = 0 ∧
      ∀ i, i ≠ wQuiet.head → s2.thief i = wQuiet.thief i) :=
  ⟨by decide, rfl, rfl, by decide,
   spawn_then_sync_runs_inline wQuiet 7 (by decide) rfl rfl (by decide)⟩


/-- Witness for C2 at a concrete state and body. -/
theorem sync_fast_path_spec_witness :
    wFast.movesplit = false ∧ wFast.split ≤ wFast.head - 1 ∧
    wFast.thief (wFast.head - 1) = 1 ∧
    ((syncStep wFast (5 : Nat)).2 = SyncOut.fastInline 5 ∧
     (syncStep wFast (5 : Nat)).1.head = wFast.head - 1 ∧
     (syncStep wFast (5 : Nat)).1.thief (wFast.head - 1) = 0 ∧
     (∀ i, i ≠ wFast.head - 1 →
       (syncStep wFast (5 : Nat)).1.thief i = wFast.thief i) ∧
     (syncStep wFast (5 : Nat)).1.split = wFast.split ∧
     (syncStep wFast (5 : Nat)).1.pubV = wFast.pubV ∧
     (syncStep wFast (5 : Nat)).2 ≠ SyncOut.slow) :=
  ⟨rfl, by decide, by decide,
   sync_fast_path_spec wFast 5 rfl (by decide) (by decide)⟩


/-- Witness for C3 at a concrete state. -/
theorem spawn_allstolen_republish_witness :
    wStolen.allstolen = true ∧ wStolen.head ≠ wStolen.capacity ∧
    0 ≤ wStolen.head ∧ wStolen.head + 1 < 4294967296 ∧
    (∃ s', spawn wStolen = some s' ∧
      s'.pubV = packTS wStolen.head.toNat (wStolen.head.toNat + 1) ∧
      (pubTail s' : Int) = wStolen.head ∧
      (pubSplit s' : Int) = wStolen.head + 1 ∧
      s'.allstolen = false ∧ s'.pubAllstolen = false ∧
      s'.movesplit = false ∧ s'.split = wStolen.head + 1 ∧
      s'.head = wStolen.head + 1) :=
  ⟨rfl, by decide, by decide, by decide,
   spawn_allstolen_republish wStolen rfl (by decide) (by decide) (by decide)⟩


/-- Witness for the amended C4 at a concrete state. -/
theorem spawn_movesplit_grows_split_witness :
    wGrow.allstolen = false ∧ wGrow.movesplit = true ∧
    wGrow.head ≠ wGrow.capacity ∧ 0 ≤ wGrow.split ∧
    wGrow.split ≤ wGrow.head ∧
    wGrow.split + wGrow.head + 2 < 4294967296 ∧
    (∃ s', spawn wGrow = some s' ∧
      s'.split = (wGrow.split + wGrow.head + 2) / 2 ∧
      (pubSplit s' : Int) = s'.split ∧
      pubTail s' = pubTail wGrow ∧
      s'.movesplit = false ∧
      wGrow.split < s'.split ∧ s'.split ≤ wGrow.head + 1 ∧
      s'.head = wGrow.head + 1) :=
  ⟨rfl, rfl, by decide, by decide, by decide, by decide,
   spawn_movesplit_grows_split wGrow rfl rfl (by decide) (by decide)
     (by decide) (by decide)⟩

/-- Witness for C5 at the concrete capacity 3. -/
theorem spawn_chain_overflow_witness :
    (∃ s', spawnN 3 (initState 3) = some s' ∧ s'.head = (3 : Int)) ∧
    spawnN (3 + 1) (initState 3) = none ∧
    ∀ s : WorkerState, spawn s = none ↔ s.head = s.capacity :=
  spawn_chain_overflow 3

/-- Witness for C6 at a concrete invariant-satisfying state. -/
theorem owner_ops_preserve_deque_invariant_witness :
    DequeInv wQuiet ∧ PubCoherent wQuiet ∧
    ((∀ s', spawn wQuiet = some s' → DequeInv s' ∧ PubCoherent s') ∧
     (∀ s', syncStep wQuiet () = (s', SyncOut.fastInline ()) →
       DequeInv s' ∧ PubCoherent s')) :=
  ⟨by unfold DequeInv; decide, by unfold PubCoherent; decide,
   owner_ops_preserve_deque_invariant wQuiet
     (by unfold DequeInv; decide) (by unfold PubCoherent; decide)⟩

/-- Witness for the amended C7 at a concrete state and body. -/
theorem sync_never_aborts_witness :
    (syncStep (initState 4) (0 : Nat)).2 ≠ SyncOut.abort ∧
    (syncStep (initState 4) (0 : Nat)).1.head = (initState 4).head - 1 :=
  sync_never_aborts (initState 4) 0

/-- Witness for C8 at a concrete worker context and body. -/
theorem run_dispatch_spec_witness :
    ((some ⟨0, 0⟩ : Option WorkerInfo) ≠ none →
      runDispatch (some ⟨0, 0⟩ : Option WorkerInfo) (1 : Nat)
        = RunOutcome.direct 1) ∧
    ((some ⟨0, 0⟩ : Option WorkerInfo) = none →
      runDispatch (some ⟨0, 0⟩ : Option WorkerInfo) (1 : Nat)
        = RunOutcome.handedToPool 1) ∧
    (∀ k, RunOutcome.direct (1 : Nat)
      ≠ (RunOutcome.handedToPool k : RunOutcome Nat)) :=
  run_dispatch_spec (some ⟨0, 0⟩) 1

/-- Witness for C9 at a concrete completed task. -/
theorem stolen_completed_task_queries_witness :
    (lace_is_stolen_task ⟨2⟩ = 1 ↔
      ((2 : Nat) ≠ 0 ∧ (2 : Nat) ≠ 1)) ∧
    lace_is_stolen_task ⟨2⟩ = 1 ∧
    (lace_is_completed_task ⟨2⟩ = 1 → lace_is_stolen_task ⟨2⟩ = 1) :=
  stolen_completed_task_queries ⟨2⟩

/-- Witness for C10 at a concrete worker. -/
theorem worker_query_spec_witness :
    ((some ⟨3, 2⟩ : Option WorkerInfo) = none →
      lace_worker_id (some ⟨3, 2⟩) = -1 ∧
      lace_worker_pu (some ⟨3, 2⟩) = -1) ∧
    (∀ w, (some ⟨3, 2⟩ : Option WorkerInfo) = some w →
      lace_worker_id (some ⟨3, 2⟩) = (w.worker : Int) ∧
      lace_worker_pu (some ⟨3, 2⟩) = w.pu) ∧
    (lace_is_worker (some ⟨3, 2⟩) = 1 ↔
      (some ⟨3, 2⟩ : Option WorkerInfo) ≠ none) :=
  worker_query_spec (some ⟨3, 2⟩)

end Lace
